import Mathlib

/-!
Verification of the twig-unused-css-finder class extraction and
reconciliation pipeline.

The development shallowly embeds the TypeScript sources
(src/extractors.ts, src/index.ts, src/fileProcessors.ts, src/utils.ts)
over lists of characters.  Each JavaScript regular-expression operation
used by the source is implemented as an explicit scanner that follows
the exec/replace/split semantics of the concrete pattern appearing in
the code.  Scanners that skip ahead by more than one character take a
fuel argument (always invoked with length + 1, which is sufficient
since every step consumes at least one character); this keeps all
definitions structurally recursive and kernel-evaluable.
-/

/-- Set of characters matched by the JavaScript `\s` character class
(also the set trimmed by `String.prototype.trim`). -/
def jsWhitespace (c : Char) : Bool :=
  c = ' ' || c = '\t' || c = '\n' || c = '\r' ||
  c = Char.ofNat 11 || c = Char.ofNat 12 || c = Char.ofNat 160 ||
  c = Char.ofNat 0x1680 ||
  (Char.ofNat 0x2000 ≤ c && c ≤ Char.ofNat 0x200a) ||
  c = Char.ofNat 0x2028 || c = Char.ofNat 0x2029 ||
  c = Char.ofNat 0x202f || c = Char.ofNat 0x205f ||
  c = Char.ofNat 0x3000 || c = Char.ofNat 0xfeff

/-- The single-quote character (written via its code point). -/
def squote : Char := Char.ofNat 39

/-- The double-quote character. -/
def dquote : Char := Char.ofNat 34

/-- The opening-brace character. -/
def obrace : Char := Char.ofNat 123

/-- The closing-brace character. -/
def cbrace : Char := Char.ofNat 125

/-- JavaScript `String.prototype.trim`. -/
def jsTrim (l : List Char) : List Char :=
  ((l.dropWhile jsWhitespace).reverse.dropWhile jsWhitespace).reverse

/-- `l.startsWith(c)` for a one-character prefix. -/
def startsWithChar : List Char → Char → Bool
  | [], _ => false
  | x :: _, c => x = c

/-- `l.endsWith(c)` for a one-character suffix. -/
def endsWithChar (l : List Char) (c : Char) : Bool :=
  startsWithChar l.reverse c

/-- JavaScript `s.slice(1, -1)`: drop the first and last characters. -/
def dropFirstLast (l : List Char) : List Char :=
  (l.drop 1).dropLast

/-- Insertion into a JavaScript `Set` kept as an insertion-ordered,
duplicate-free list (the iteration order of `Set` / `Array.from`). -/
def addClass (acc : List String) (cls : String) : List String :=
  if acc.contains cls then acc else acc ++ [cls]

/-- JavaScript `str.split(sep)` for a one-character separator: every
occurrence separates, empty segments are kept, and the empty string
splits to `[""]`. -/
def splitOnChar (sep : Char) : List Char → List (List Char)
  | [] => [[]]
  | c :: rest =>
    if c = sep then [] :: splitOnChar sep rest
    else
      match splitOnChar sep rest with
      | [] => [[c]]
      | h :: t => (c :: h) :: t

/-- Worker for `jsSplitWs`.  `skipping` records whether the scanner is
inside a whitespace run (a run at the very end yields a trailing empty
segment, as JavaScript `split(/\s+/)` does). -/
def jsSplitWsGo (skipping : Bool) (cur : List Char) : List Char → List (List Char)
  | [] => if skipping then [[]] else [cur.reverse]
  | c :: rest =>
    if jsWhitespace c then
      if skipping then jsSplitWsGo true [] rest
      else cur.reverse :: jsSplitWsGo true [] rest
    else jsSplitWsGo false (c :: cur) rest

/-- JavaScript `str.split(/\s+/)`: split on maximal whitespace runs.
A leading run yields a leading empty segment and a trailing run a
trailing empty segment. -/
def jsSplitWs (l : List Char) : List (List Char) :=
  jsSplitWsGo false [] l

/-- Is the character one of the two JavaScript quote characters used in
the extraction patterns (the class `['"]`). -/
def isAnyQuote (c : Char) : Bool := c = squote || c = dquote

/-- Is the character a single quote (the class `[']`). -/
def isSingleQuote (c : Char) : Bool := c = squote

/-- All matches of `/q([^qq]+)q/g`-style quoted-literal patterns, where
`isQ` tells which characters count as quotes (`/['"]([^'"]+)['"]/g`
when both quotes do, `/'([^']+)'/g` when only the single quote does).
Returns the contents between the quotes, exactly like the non-global
match list with the quote characters stripped.  Fuel-driven scan that
mirrors `RegExp.exec` with a `g` flag: after a successful match the
scan resumes after the closing quote, after a failure it advances one
character. -/
def scanQuoted (isQ : Char → Bool) : Nat → List Char → List (List Char)
  | 0, _ => []
  | _ + 1, [] => []
  | fuel + 1, c :: rest =>
    if isQ c then
      let run := rest.takeWhile (fun d => !isQ d)
      match rest.dropWhile (fun d => !isQ d) with
      | [] => scanQuoted isQ fuel rest
      | _ :: after =>
        if run.isEmpty then scanQuoted isQ fuel rest
        else run :: scanQuoted isQ fuel after
    else scanQuoted isQ fuel rest

/-- Contents of every quoted literal in `l` (see `scanQuoted`). -/
def quotedLiterals (isQ : Char → Bool) (l : List Char) : List (List Char) :=
  scanQuoted isQ (l.length + 1) l

/-- Test of `/\?[^:]+:/` (non-global `match`, used to detect a ternary
operator inside an interpolation): is there a `?` followed by at least
one non-colon character and then a colon. -/
def hasTernary : List Char → Bool
  | [] => false
  | c :: rest =>
    (c = '?' &&
      match rest with
      | [] => false
      | d :: r2 => decide (d ≠ ':') && r2.contains ':') ||
    hasTernary rest

/-- Locate the first adjacent occurrence of the two-character delimiter
`a b`; return the text before it and the text after it. -/
def splitDelim2 (a b : Char) : List Char → Option (List Char × List Char)
  | [] => none
  | [_] => none
  | x :: y :: rest =>
    if x = a && y = b then some ([], rest)
    else
      match splitDelim2 a b (y :: rest) with
      | none => none
      | some (pre, post) => some (x :: pre, post)

/-- `classString.replace(/{%[\s\S]*?%}/g, handler)` from the static
branch of `extractClassesFromTemplate`.  The handler harvests every
quoted literal inside the construct (`/['"]([^'"]+)['"]/g`), strips its
quotes, splits it on `/\s+/` and adds every resulting token to the
class set (with no emptiness check), then replaces the whole construct
by a single space.  Returns the rewritten string and the updated set. -/
def replaceTwig : Nat → List Char → List String → List Char × List String
  | 0, l, acc => (l, acc)
  | _ + 1, [], acc => ([], acc)
  | fuel + 1, c :: rest, acc =>
    if c = obrace then
      match rest with
      | '%' :: r2 =>
        match splitDelim2 '%' cbrace r2 with
        | some (inside, after) =>
          let lits := quotedLiterals isAnyQuote inside
          let acc' := lits.foldl
            (fun a lit => (jsSplitWs lit).foldl (fun a2 t => addClass a2 (String.mk t)) a) acc
          let (out, accF) := replaceTwig fuel after acc'
          (' ' :: out, accF)
        | none =>
          let (out, accF) := replaceTwig fuel rest acc
          (c :: out, accF)
      | _ =>
        let (out, accF) := replaceTwig fuel rest acc
        (c :: out, accF)
    else
      let (out, accF) := replaceTwig fuel rest acc
      (c :: out, accF)

/-- Contents of all quoted literals of `part`, quote-stripped and
joined with single spaces: `(part.match(/['"]([^'"]+)['"]/g) || [])
.map(cls => cls.replace(/['"]/g, '')).join(' ')`. -/
def litJoin (part : List Char) : List Char :=
  ((quotedLiterals isAnyQuote part).map String.mk).foldr
    (fun s r => if r.isEmpty then s.data else s.data ++ ' ' :: r) []

/-- `classString.replace(/{{[\s\S]*?}}/g, handler)`: for a ternary
interpolation the handler splits on every colon, extracts the quoted
literals of the first two parts and substitutes `truthy ++ " " ++
falsy` (JavaScript renders a missing second part as the text
`undefined`); otherwise it substitutes the joined quoted literals. -/
def replaceInterp : Nat → List Char → List Char
  | 0, l => l
  | _ + 1, [] => []
  | fuel + 1, c :: rest =>
    if c = obrace then
      match rest with
      | c2 :: r2 =>
        if c2 = obrace then
          match splitDelim2 cbrace cbrace r2 with
          | some (inside, after) =>
            let repl :=
              if hasTernary inside then
                match splitOnChar ':' inside with
                | [] => []
                | [t] => litJoin t ++ ' ' :: ("undefined".data)
                | t :: f :: _ => litJoin t ++ ' ' :: litJoin f
              else litJoin inside
            repl ++ replaceInterp fuel after
          | none => c :: replaceInterp fuel rest
        else c :: replaceInterp fuel rest
      | [] => c :: replaceInterp fuel rest
    else c :: replaceInterp fuel rest

/-- `classString.replace(/\[[\s\S]*?\]/g, ' ')`: each bracketed span up
to the first closing bracket becomes a single space; an unmatched `[`
is left in place. -/
def removeBrackets : Nat → List Char → List Char
  | 0, l => l
  | _ + 1, [] => []
  | fuel + 1, c :: rest =>
    if c = '[' then
      match rest.dropWhile (fun d => !d = ']') with
      | ']' :: after => ' ' :: removeBrackets fuel after
      | _ => c :: removeBrackets fuel rest
    else c :: removeBrackets fuel rest

/-- One match of the attribute patterns
`/(?<=^|\s)class\s*=\s*(["'])((?:(?!\1).|\n)*)\1/g` and
`/(?<=^|\s):class\s*=\s*(['"])((?:(?!\1).|\n)*)\1/g`:
the character preceding the match (`none` at the start of input), the
quote character, and the quoted value (capture group 2). -/
structure AttrMatch where
  prev : Option Char
  quote : Char
  body : List Char
deriving Repr, DecidableEq

/-- The lookbehind `(?<=^|\s)`: start of input or a whitespace
character. -/
def prevOk : Option Char → Bool
  | none => true
  | some c => jsWhitespace c

/-- Try to match `key ++ \s* ++ = ++ \s* ++ q ++ body ++ q` (with
`q ∈ {', "}` and `body` free of `q`) at the head of `l`.  On success
return the quote, the body and the remainder of the input after the
closing quote. -/
def tryAttrAt (key : List Char) (l : List Char) : Option (Char × List Char × List Char) :=
  if key.isPrefixOf l then
    match (l.drop key.length).dropWhile jsWhitespace with
    | '=' :: r3 =>
      match r3.dropWhile jsWhitespace with
      | q :: r5 =>
        if isAnyQuote q then
          let body := r5.takeWhile (fun d => !d = q)
          match r5.dropWhile (fun d => !d = q) with
          | _ :: after => some (q, body, after)
          | [] => none
        else none
      | [] => none
    | _ => none
  else none

/-- Scan the whole content for attribute matches, as the `while
(pattern.exec(content))` loops do: a match is attempted only where
the lookbehind holds; on success the scan resumes after the closing
quote (the new preceding character), on failure it advances one
character. -/
def scanAttr (key : List Char) : Nat → Option Char → List Char → List AttrMatch
  | 0, _, _ => []
  | _ + 1, _, [] => []
  | fuel + 1, prev, c :: rest =>
    if prevOk prev then
      match tryAttrAt key (c :: rest) with
      | some (q, body, after) => ⟨prev, q, body⟩ :: scanAttr key fuel (some q) after
      | none => scanAttr key fuel (some c) rest
    else scanAttr key fuel (some c) rest

/-- The lookahead text test of `/,(?![^{]*})/`: does a closing brace
occur in `l` before any opening brace (i.e. does `[^{]*}` match here).
A comma is a split point exactly when this is false for the text that
follows it. -/
def closeBeforeOpen : List Char → Bool
  | [] => false
  | c :: rest =>
    if c = obrace then false
    else if c = cbrace then true
    else closeBeforeOpen rest

/-- `classArray = classBinding.slice(1, -1).split(/,(?![^{]*})/)`:
split on commas that are not followed by a closing brace occurring
before any opening brace. -/
def splitCommaTopLevel : List Char → List (List Char)
  | [] => [[]]
  | c :: rest =>
    if c = ',' && !closeBeforeOpen rest then [] :: splitCommaTopLevel rest
    else
      match splitCommaTopLevel rest with
      | [] => [[c]]
      | h :: t => (c :: h) :: t

/-- Characters removed by `key.replace(/['":]/g, '')`. -/
def isQuoteOrColon (c : Char) : Bool := c = squote || c = dquote || c = ':'

/-- Processing of one static `class="..."` attribute value: harvest
Twig constructs, substitute interpolations, blank bracketed spans, then
split on whitespace and add every non-empty token. -/
def processStaticBody (acc : List String) (body : List Char) : List String :=
  let p1 := replaceTwig (body.length + 1) body acc
  let s2 := replaceInterp (p1.1.length + 1) p1.1
  let s3 := removeBrackets (s2.length + 1) s2
  (jsSplitWs s3).foldl
    (fun a t => if t.isEmpty then a else addClass a (String.mk t)) p1.2

/-- Object-syntax branch of the dynamic pass: for each `key: value`
pair take the text left of the first colon (`pair.split(':')[0]`);
JavaScript would fail here if `split` could return an empty array, so
that impossible case is modelled as an error.  A trimmed key that is
non-empty and does not start with `[` is added with quote and colon
characters stripped. -/
def processObjectPairs : List (List Char) → List String → Except String (List String)
  | [], acc => .ok acc
  | p :: ps, acc =>
    match splitOnChar ':' p with
    | [] => .error "split returned an empty array"
    | k :: _ =>
      let key := jsTrim k
      let acc' :=
        if !key.isEmpty && !startsWithChar key '[' then
          addClass acc (String.mk (key.filter (fun c => !isQuoteOrColon c)))
        else acc
      processObjectPairs ps acc'

/-- Array-syntax branch of the dynamic pass: a trimmed element wrapped
in a single matching quote pair contributes its unquoted content; an
element starting with a brace contributes every single-quoted literal
inside it; anything else contributes nothing. -/
def processArrayItems : List (List Char) → List String → List String
  | [], acc => acc
  | it0 :: its, acc =>
    let it := jsTrim it0
    let acc' :=
      if (startsWithChar it squote && endsWithChar it squote) ||
         (startsWithChar it dquote && endsWithChar it dquote) then
        addClass acc (String.mk (dropFirstLast it))
      else if startsWithChar it obrace then
        (quotedLiterals isSingleQuote it).foldl
          (fun a lit => addClass a (String.mk lit)) acc
      else acc
    processArrayItems its acc'

/-- Dispatch on the shape of one `:class="..."` binding value. -/
def processDynBody (acc : List String) (b : List Char) : Except String (List String) :=
  if startsWithChar b obrace && endsWithChar b cbrace then
    processObjectPairs (splitOnChar ',' (jsTrim (dropFirstLast b))) acc
  else if startsWithChar b '[' && endsWithChar b ']' then
    .ok (processArrayItems (splitCommaTopLevel (dropFirstLast b)) acc)
  else
    .ok ((quotedLiterals isAnyQuote b).foldl
      (fun a lit => addClass a (String.mk (jsTrim lit))) acc)

/-- Process the dynamic matches in order, threading the class set. -/
def dynLoop : List AttrMatch → List String → Except String (List String)
  | [], acc => .ok acc
  | m :: rest, acc =>
    match processDynBody acc m.body with
    | .error e => .error e
    | .ok acc' => dynLoop rest acc'

/-- `extractClassesFromTemplate` (src/extractors.ts): run the static
`class="..."` pass and then the dynamic `:class="..."` pass over the
whole content, returning the class set in insertion order. -/
def extractClassesFromTemplate (content : String) : Except String (List String) :=
  let cs := content.data
  let statics := scanAttr "class".data (cs.length + 1) none cs
  let acc1 := statics.foldl (fun a m => processStaticBody a m.body) []
  let dyns := scanAttr ":class".data (cs.length + 1) none cs
  dynLoop dyns acc1

/-- `isValidClassName` (src/utils.ts): test of
`/^-?[_a-zA-Z]+[_a-zA-Z0-9-]*$/`. -/
def alphaU (c : Char) : Bool :=
  c = '_' || ('a' ≤ c && c ≤ 'z') || ('A' ≤ c && c ≤ 'Z')

/-- The character class `[_a-zA-Z0-9-]`. -/
def identChar (c : Char) : Bool :=
  alphaU c || ('0' ≤ c && c ≤ '9') || c = '-'

/-- Core of the class-name test after the optional leading hyphen:
non-empty, first character in `[_a-zA-Z]`, rest in `[_a-zA-Z0-9-]`. -/
def validCore : List Char → Bool
  | [] => false
  | c :: rest => alphaU c && rest.all identChar

/-- `isValidClassName` (src/utils.ts). -/
def isValidClassName (className : String) : Bool :=
  match className.data with
  | '-' :: rest => validCore rest
  | l => validCore l

/-- Try to match `background(-image)?:\s*url\s*\([^)]*\)[^;]*;` at the
head of `l`; on success return the remainder after the semicolon. -/
def bgCont (r : List Char) : Option (List Char) :=
  let r1 := r.dropWhile jsWhitespace
  if "url".data.isPrefixOf r1 then
    match (r1.drop 3).dropWhile jsWhitespace with
    | '(' :: r3 =>
      match r3.dropWhile (fun d => !d = ')') with
      | ')' :: r5 =>
        match r5.dropWhile (fun d => !d = ';') with
        | ';' :: r7 => some r7
        | _ => none
      | _ => none
    | _ => none
  else none

/-- Head match of the background-declaration pattern (see `bgCont`). -/
def tryBgMatch (l : List Char) : Option (List Char) :=
  if "background".data.isPrefixOf l then
    match l.drop 10 with
    | ':' :: r => bgCont r
    | r =>
      if "-image:".data.isPrefixOf r then bgCont (r.drop 7) else none
  else none

/-- `content.replace(/background(-image)?:\s*url\s*\([^)]*\)[^;]*;/g, '')`
(the first clean-up step of `extractClassesFromCss`). -/
def removeBgUrlDecls : Nat → List Char → List Char
  | 0, l => l
  | _ + 1, [] => []
  | fuel + 1, c :: rest =>
    match tryBgMatch (c :: rest) with
    | some after => removeBgUrlDecls fuel after
    | none => c :: removeBgUrlDecls fuel rest

/-- Head match of `url\s*\([^)]*\)`. -/
def tryUrlMatch (l : List Char) : Option (List Char) :=
  if "url".data.isPrefixOf l then
    match (l.drop 3).dropWhile jsWhitespace with
    | '(' :: r2 =>
      match r2.dropWhile (fun d => !d = ')') with
      | ')' :: r3 => some r3
      | _ => none
    | _ => none
  else none

/-- `content.replace(/url\s*\([^)]*\)/g, '')` (second clean-up step). -/
def removeUrlFuncs : Nat → List Char → List Char
  | 0, l => l
  | _ + 1, [] => []
  | fuel + 1, c :: rest =>
    match tryUrlMatch (c :: rest) with
    | some after => removeUrlFuncs fuel after
    | none => c :: removeUrlFuncs fuel rest

/-- After a literal dot, try to match the capture group
`-?[_a-zA-Z]+[_a-zA-Z0-9-]*` greedily; return the group and the
remainder of the input. -/
def tryClassIdent (l : List Char) : Option (List Char × List Char) :=
  match l with
  | '-' :: r =>
    match r with
    | d :: _ =>
      if alphaU d then some ('-' :: r.takeWhile identChar, r.dropWhile identChar)
      else none
    | [] => none
  | d :: _ =>
    if alphaU d then some (l.takeWhile identChar, l.dropWhile identChar) else none
  | [] => none

/-- The mode-classes scan `/\.(-?[_a-zA-Z]+[_a-zA-Z0-9-]*)/g` with the
`isValidClassName` filter, collecting into the insertion-ordered set. -/
def classScanGo : Nat → List Char → List String → List String
  | 0, _, acc => acc
  | _ + 1, [], acc => acc
  | fuel + 1, c :: rest, acc =>
    if c = '.' then
      match tryClassIdent rest with
      | some (name, after) =>
        let s := String.mk name
        classScanGo fuel after (if isValidClassName s then addClass acc s else acc)
      | none => classScanGo fuel rest acc
    else classScanGo fuel rest acc

/-- Not a brace (the class `[^{}]`). -/
def nonBrace (c : Char) : Bool := !(c = obrace || c = cbrace)

/-- The mode-selectors scan `/([^{}]+)(?=\s*\{)/g`: a maximal brace-free
run whose following character is `{` is split on commas, trimmed, and
each non-empty part added. -/
def selectorScanGo : Nat → List Char → List String → List String
  | 0, _, acc => acc
  | _ + 1, [], acc => acc
  | fuel + 1, c :: rest, acc =>
    if nonBrace c then
      let run := c :: rest.takeWhile nonBrace
      match rest.dropWhile nonBrace with
      | b :: after2 =>
        if b = obrace then
          let acc' := (splitOnChar ',' run).foldl
            (fun a sel =>
              let t := jsTrim sel
              if t.isEmpty then a else addClass a (String.mk t)) acc
          selectorScanGo fuel (b :: after2) acc'
        else selectorScanGo fuel (b :: after2) acc
      | [] => acc
    else selectorScanGo fuel rest acc

/-- `extractClassesFromCss` (src/extractors.ts): validate the
`extractOnly` option (throwing before touching the content when it is
neither `classes` nor `selectors`), strip URL-bearing background
declarations and remaining `url(...)` calls, then scan for class names
or selectors. -/
def extractClassesFromCss (content : String) (extractOnly : String) :
    Except String (List String) :=
  if extractOnly ≠ "classes" ∧ extractOnly ≠ "selectors" then
    .error "Invalid 'extractOnly' option. Must be either 'classes' or 'selectors'."
  else
    let c1 := removeBgUrlDecls (content.data.length + 1) content.data
    let c2 := removeUrlFuncs (c1.length + 1) c1
    if extractOnly = "classes" then .ok (classScanGo (c2.length + 1) c2 [])
    else .ok (selectorScanGo (c2.length + 1) c2 [])

/-- The `data` field of an extraction record: `string[] | string` in
src/fileProcessors.ts (`string` for template records, `string[]` for
CSS records). -/
inductive ExtractedValue where
  | str (s : String)
  | arr (l : List String)
deriving Repr, DecidableEq

/-- JavaScript `data.length` on the union type. -/
def dataLen : ExtractedValue → Nat
  | .str s => s.length
  | .arr l => l.length

/-- `ExtractedData` (src/fileProcessors.ts): one record per processed
input file. -/
structure ExtractedData where
  data : ExtractedValue
  path : String
deriving Repr, DecidableEq

/-- File-discovery result (src/utils.ts `FileInfo`). -/
structure FileInfo where
  name : String
  path : String
deriving Repr, DecidableEq

/-- The body of the `map` in `processFiles`: read the file (the
possible I/O failure is the `read` function returning `none`), run the
extractor, and build the record; any failure is caught and mapped to
`null`. -/
def perFileResult (read : String → Option String)
    (extractorFn : String → Except String (List String))
    (dataProcessor : List String → ExtractedValue)
    (file : FileInfo) : Option ExtractedData :=
  match read file.path with
  | none => none
  | some content =>
    match extractorFn content with
    | .error _ => none
    | .ok extracted => some ⟨dataProcessor extracted, file.path⟩

/-- `processFiles` (src/fileProcessors.ts): map every file to its
record or `null`, then keep the non-null records whose data is
non-empty (`item !== null && item.data.length > 0`). -/
def processFiles (files : List FileInfo) (read : String → Option String)
    (extractorFn : String → Except String (List String))
    (dataProcessor : List String → ExtractedValue) : List ExtractedData :=
  (files.filterMap (perFileResult read extractorFn dataProcessor)).filter
    (fun item => decide (0 < dataLen item.data))

/-- `processTemplateFilesToExtractClasses`: template records store the
extracted classes joined with single spaces. -/
def processTemplateFilesToExtractClasses (files : List FileInfo)
    (read : String → Option String) : List ExtractedData :=
  processFiles files read extractClassesFromTemplate
    (fun classes => .str (String.intercalate " " classes))

/-- `processCssFilesToExtractClasses`: CSS records store the class
array itself, extracted in mode `classes`. -/
def processCssFilesToExtractClasses (files : List FileInfo)
    (read : String → Option String) : List ExtractedData :=
  processFiles files read (fun content => extractClassesFromCss content "classes")
    (fun selectors => .arr selectors)

/-- `createFlattenedClasses` (src/index.ts), pure core: fold the
per-file records into one `Set`; string data contributes its
`split(' ')` segments, array data its elements. -/
def createFlattenedClasses (items : List ExtractedData) : List String :=
  items.foldl
    (fun acc item =>
      match item.data with
      | .str s => (splitOnChar ' ' s.data).foldl
          (fun a t => addClass a (String.mk t)) acc
      | .arr l => l.foldl addClass acc) []

/-- The tokens one record contributes to the flattened set. -/
def itemTokens (item : ExtractedData) : List String :=
  match item.data with
  | .str s => (splitOnChar ' ' s.data).map String.mk
  | .arr l => l

/-- `isIgnoredClass` (src/index.ts): does any ignore pattern match the
class name (patterns are modelled as boolean predicates). -/
def isIgnoredClass (className : String) (ignoredClassPatterns : List (String → Bool)) : Bool :=
  ignoredClassPatterns.any (fun pattern => pattern className)

/-- The `new Set(...)` built from a parsed JSON array: insertion-order
deduplication. -/
def jsSetOfList (l : List String) : List String :=
  l.foldl addClass []

/-- The final diff report (src/index.ts). -/
structure DiffReport where
  cssClassesNotFoundInTemplates : List String
  templateClassesNotFoundInCss : List String
deriving Repr, DecidableEq

/-- `getUnusedCssClasses` (src/index.ts), pure core: the two filtered
asymmetric differences of the flattened class sets. -/
def getUnusedCssClasses (templateClasses cssClasses : List String)
    (ignoredClassPatterns : List (String → Bool)) : DiffReport :=
  let templateClassesList := jsSetOfList templateClasses
  let cssClassesList := jsSetOfList cssClasses
  { cssClassesNotFoundInTemplates :=
      cssClassesList.filter
        (fun cls => !templateClassesList.contains cls &&
          !isIgnoredClass cls ignoredClassPatterns)
    templateClassesNotFoundInCss :=
      templateClassesList.filter
        (fun cls => !cssClassesList.contains cls &&
          !isIgnoredClass cls ignoredClassPatterns) }

/-- The per-file success-and-non-empty test that determines whether a
file contributes a record to the `processFiles` output. -/
def fileQualifies (read : String → Option String)
    (extractorFn : String → Except String (List String))
    (dataProcessor : List String → ExtractedValue) (file : FileInfo) : Bool :=
  (perFileResult read extractorFn dataProcessor file).elim false
    (fun item => decide (0 < dataLen item.data))

theorem splitOnChar_ne_nil (sep : Char) (l : List Char) :
    splitOnChar sep l ≠ [] := by
  induction l with
  | nil => simp [splitOnChar]
  | cons c rest ih =>
    simp only [splitOnChar]
    split
    · simp
    · cases h : splitOnChar sep rest with
      | nil => exact absurd h ih
      | cons h t => simp

theorem mem_addClass {acc : List String} {s x : String} :
    x ∈ addClass acc s ↔ x ∈ acc ∨ x = s := by
  unfold addClass
  split
  · rename_i hc
    have hs : s ∈ acc := by simpa using hc
    constructor
    · exact Or.inl
    · rintro (h | rfl)
      · exact h
      · exact hs
  · simp

theorem mem_foldl_addClass {ts : List String} {acc : List String} {x : String} :
    x ∈ ts.foldl addClass acc ↔ x ∈ acc ∨ x ∈ ts := by
  induction ts generalizing acc with
  | nil => simp
  | cons t ts ih =>
    simp only [List.foldl_cons, ih, mem_addClass, List.mem_cons]
    tauto

theorem scanAttr_prevOk (key : List Char) (fuel : Nat) (prev : Option Char)
    (l : List Char) (m : AttrMatch) (hm : m ∈ scanAttr key fuel prev l) :
    prevOk m.prev = true := by
  induction fuel generalizing prev l with
  | zero => simp [scanAttr] at hm
  | succ fuel ih =>
    cases l with
    | nil => simp [scanAttr] at hm
    | cons c rest =>
      simp only [scanAttr] at hm
      by_cases hp : prevOk prev = true
      · rw [if_pos hp] at hm
        cases ht : tryAttrAt key (c :: rest) with
        | none => rw [ht] at hm; exact ih _ _ hm
        | some triple =>
          obtain ⟨q, body, after⟩ := triple
          rw [ht] at hm
          rcases List.mem_cons.mp hm with rfl | hm'
          · exact hp
          · exact ih _ _ hm'
      · rw [if_neg hp] at hm
        exact ih _ _ hm

theorem contains_eq_true_iff {l : List String} {x : String} :
    l.contains x = true ↔ x ∈ l := by simp

theorem mem_jsSetOfList {l : List String} {x : String} :
    x ∈ jsSetOfList l ↔ x ∈ l := by
  simp [jsSetOfList, mem_foldl_addClass]

theorem mem_getUnused_css {T C : List String} {ps : List (String → Bool)} {x : String} :
    x ∈ (getUnusedCssClasses T C ps).cssClassesNotFoundInTemplates ↔
      x ∈ C ∧ x ∉ T ∧ isIgnoredClass x ps = false := by
  simp only [getUnusedCssClasses, List.mem_filter, mem_jsSetOfList,
    Bool.and_eq_true, Bool.not_eq_true']
  constructor
  · rintro ⟨h1, h2, h3⟩
    refine ⟨h1, ?_, h3⟩
    intro hT
    rw [contains_eq_true_iff.mpr (mem_jsSetOfList.mpr hT)] at h2
    exact Bool.true_eq_false.mp h2
  · rintro ⟨h1, h2, h3⟩
    refine ⟨h1, ?_, h3⟩
    rw [← Bool.not_eq_true]
    intro hc
    exact h2 (mem_jsSetOfList.mp (contains_eq_true_iff.mp hc))

theorem mem_getUnused_tmpl {T C : List String} {ps : List (String → Bool)} {x : String} :
    x ∈ (getUnusedCssClasses T C ps).templateClassesNotFoundInCss ↔
      x ∈ T ∧ x ∉ C ∧ isIgnoredClass x ps = false := by
  simp only [getUnusedCssClasses, List.mem_filter, mem_jsSetOfList,
    Bool.and_eq_true, Bool.not_eq_true']
  constructor
  · rintro ⟨h1, h2, h3⟩
    refine ⟨h1, ?_, h3⟩
    intro hC
    rw [contains_eq_true_iff.mpr (mem_jsSetOfList.mpr hC)] at h2
    exact Bool.true_eq_false.mp h2
  · rintro ⟨h1, h2, h3⟩
    refine ⟨h1, ?_, h3⟩
    rw [← Bool.not_eq_true]
    intro hc
    exact h2 (mem_jsSetOfList.mp (contains_eq_true_iff.mp hc))

theorem mem_createFlattenedClasses_aux {items : List ExtractedData}
    {acc : List String} {x : String} :
    x ∈ items.foldl
        (fun acc item =>
          match item.data with
          | .str s => (splitOnChar ' ' s.data).foldl
              (fun a t => addClass a (String.mk t)) acc
          | .arr l => l.foldl addClass acc) acc ↔
      x ∈ acc ∨ ∃ item, item ∈ items ∧ x ∈ itemTokens item := by
  induction items generalizing acc with
  | nil => simp
  | cons it its ih =>
    simp only [List.foldl_cons, ih]
    have hstep : ∀ acc₀ : List String,
        (x ∈ (match it.data with
          | .str s => (splitOnChar ' ' s.data).foldl
              (fun a t => addClass a (String.mk t)) acc₀
          | .arr l => l.foldl addClass acc₀)) ↔
          x ∈ acc₀ ∨ x ∈ itemTokens it := by
      intro acc₀
      cases hd : it.data with
      | str s =>
        show x ∈ List.foldl (fun a t => addClass a (String.mk t)) acc₀
            (splitOnChar ' ' s.data) ↔ _
        rw [← List.foldl_map String.mk addClass]
        simp [mem_foldl_addClass, itemTokens, hd]
      | arr l => simp [mem_foldl_addClass, itemTokens, hd]
    rw [hstep]
    simp only [List.mem_cons]
    constructor
    · rintro (⟨h | h⟩ | ⟨item, hmem, htok⟩)
      · exact Or.inl h
      · exact Or.inr ⟨it, Or.inl rfl, h⟩
      · exact Or.inr ⟨item, Or.inr hmem, htok⟩
    · rintro (h | ⟨item, (rfl | hmem), htok⟩)
      · exact Or.inl (Or.inl h)
      · exact Or.inl (Or.inr htok)
      · exact Or.inr ⟨item, hmem, htok⟩

theorem mem_createFlattenedClasses {items : List ExtractedData} {x : String} :
    x ∈ createFlattenedClasses items ↔
      ∃ item, item ∈ items ∧ x ∈ itemTokens item := by
  unfold createFlattenedClasses
  rw [mem_createFlattenedClasses_aux]
  simp

theorem processObjectPairs_ok (pairs : List (List Char)) (acc : List String) :
    ∃ l, processObjectPairs pairs acc = .ok l := by
  induction pairs generalizing acc with
  | nil => exact ⟨acc, rfl⟩
  | cons p ps ih =>
    simp only [processObjectPairs]
    cases h : splitOnChar ':' p with
    | nil => exact absurd h (splitOnChar_ne_nil ':' p)
    | cons k t => exact ih _

theorem processDynBody_ok (acc : List String) (b : List Char) :
    ∃ l, processDynBody acc b = .ok l := by
  unfold processDynBody
  split
  · exact processObjectPairs_ok _ _
  · split
    · exact ⟨_, rfl⟩
    · exact ⟨_, rfl⟩

theorem dynLoop_ok (ms : List AttrMatch) (acc : List String) :
    ∃ l, dynLoop ms acc = .ok l := by
  induction ms generalizing acc with
  | nil => exact ⟨acc, rfl⟩
  | cons m rest ih =>
    simp only [dynLoop]
    obtain ⟨l, hl⟩ := processDynBody_ok acc m.body
    rw [hl]
    exact ih _

theorem length_filter_filterMap {α β : Type} (l : List α) (g : α → Option β)
    (p : β → Bool) :
    ((l.filterMap g).filter p).length = l.countP (fun a => (g a).elim false p) := by
  induction l with
  | nil => rfl
  | cons a l ih =>
    rw [List.filterMap_cons, List.countP_cons]
    cases h : g a with
    | none => simp [ih]
    | some b =>
      rw [List.filter_cons]
      by_cases hp : p b = true
      · simp [hp, ih, Nat.add_comm]
      · simp [hp, ih]

theorem processFiles_length (files : List FileInfo) (read : String → Option String)
    (extractorFn : String → Except String (List String))
    (dataProcessor : List String → ExtractedValue) :
    (processFiles files read extractorFn dataProcessor).length =
      files.countP (fileQualifies read extractorFn dataProcessor) := by
  exact length_filter_filterMap files (perFileResult read extractorFn dataProcessor)
    (fun item => decide (0 < dataLen item.data))

theorem perFileResult_eq_some {read : String → Option String}
    {extractorFn : String → Except String (List String)}
    {dataProcessor : List String → ExtractedValue} {file : FileInfo}
    {r : ExtractedData} :
    perFileResult read extractorFn dataProcessor file = some r ↔
      ∃ content extracted, read file.path = some content ∧
        extractorFn content = .ok extracted ∧
        r = ⟨dataProcessor extracted, file.path⟩ := by
  unfold perFileResult
  cases hc : read file.path with
  | none => simp
  | some content =>
    cases he : extractorFn content with
    | error e => simp [he]
    | ok extracted => simp [he, eq_comm]

theorem mem_processFiles {files : List FileInfo} {read : String → Option String}
    {extractorFn : String → Except String (List String)}
    {dataProcessor : List String → ExtractedValue} {r : ExtractedData} :
    r ∈ processFiles files read extractorFn dataProcessor ↔
      (∃ file content extracted, file ∈ files ∧
        read file.path = some content ∧
        extractorFn content = .ok extracted ∧
        r = ⟨dataProcessor extracted, file.path⟩) ∧ 0 < dataLen r.data := by
  unfold processFiles
  rw [List.mem_filter]
  simp only [List.mem_filterMap, perFileResult_eq_some, decide_eq_true_eq]
  constructor
  · rintro ⟨⟨file, hfile, content, extracted, hc, he, hr⟩, hlen⟩
    exact ⟨⟨file, content, extracted, hfile, hc, he, hr⟩, hlen⟩
  · rintro ⟨⟨file, content, extracted, hfile, hc, he, hr⟩, hlen⟩
    exact ⟨⟨file, hfile, content, extracted, hc, he, hr⟩, hlen⟩

/-- C1 (counterexample): on the input
`:class="['base', isActive ? 'active' : 'inactive']"` the extractor
returns only `base`; `active` is not in the result, contradicting the
claimed result set `{base, active, inactive}`. -/
theorem c1_counterexample :
    extractClassesFromTemplate
        ":class=\"['base', isActive ? 'active' : 'inactive']\"" =
      .ok ["base"] ∧ "active" ∉ (["base"] : List String) :=
  ⟨rfl, by decide⟩

/-- C1 (amended): for the input
`:class="['base', isActive ? 'active' : 'inactive']"` the extractor
returns exactly `{base}`.  The array interior is indeed split on the
comma (not nested inside braces) into the quoted element and the
ternary element, but a ternary element is neither wrapped in a single
matching quote pair nor starts with `{`, so it contributes nothing. -/
theorem c1_amended :
    extractClassesFromTemplate
        ":class=\"['base', isActive ? 'active' : 'inactive']\"" = .ok ["base"] ∧
    splitCommaTopLevel "'base', isActive ? 'active' : 'inactive'".data =
      ["'base'".data, " isActive ? 'active' : 'inactive'".data] :=
  ⟨rfl, rfl⟩

/-- C2 (code bug): extraction does emit the empty string on the
claim's own example inputs.  For `:class="{ '': x }"` the object-branch
guard `if (key && ...)` tests the key before its quotes are stripped,
so the quoted-empty key `''` passes and is added as `""`; for
`:class="['', 'a']"` the quoted-empty array element is added as `""`. -/
theorem c2_empty_string_emitted :
    extractClassesFromTemplate ":class=\"\x7b '': x \x7d\"" = .ok [""] ∧
    extractClassesFromTemplate ":class=\"['', 'a']\"" = .ok ["", "a"] :=
  ⟨rfl, rfl⟩

/-- C3: the diff step returns, in source-set iteration order, exactly
the CSS classes absent from the templates and unmatched by every
ignore pattern (and symmetrically); a class present in both source
sets appears in neither output list; the documented scenario holds. -/
theorem c3_diff_report :
    (∀ (T C : List String) (ps : List (String → Bool)) (x : String),
      x ∈ (getUnusedCssClasses T C ps).cssClassesNotFoundInTemplates ↔
        x ∈ C ∧ x ∉ T ∧ isIgnoredClass x ps = false) ∧
    (∀ (T C : List String) (ps : List (String → Bool)) (x : String),
      x ∈ (getUnusedCssClasses T C ps).templateClassesNotFoundInCss ↔
        x ∈ T ∧ x ∉ C ∧ isIgnoredClass x ps = false) ∧
    (∀ (T C : List String) (ps : List (String → Bool)) (x : String),
      x ∈ T → x ∈ C →
        x ∉ (getUnusedCssClasses T C ps).cssClassesNotFoundInTemplates ∧
        x ∉ (getUnusedCssClasses T C ps).templateClassesNotFoundInCss) ∧
    (∀ (T C : List String) (ps : List (String → Bool)),
      ((getUnusedCssClasses T C ps).cssClassesNotFoundInTemplates).Sublist
        (jsSetOfList C) ∧
      ((getUnusedCssClasses T C ps).templateClassesNotFoundInCss).Sublist
        (jsSetOfList T)) ∧
    getUnusedCssClasses ["foo", "bar"] ["bar", "baz"] [] = ⟨["baz"], ["foo"]⟩ := by
  refine ⟨fun T C ps x => mem_getUnused_css, fun T C ps x => mem_getUnused_tmpl,
    ?_, ?_, rfl⟩
  · intro T C ps x hT hC
    constructor
    · intro hx
      exact (mem_getUnused_css.mp hx).2.1 hT
    · intro hx
      exact (mem_getUnused_tmpl.mp hx).2.1 hC
  · intro T C ps
    exact ⟨List.filter_sublist _, List.filter_sublist _⟩

/-- C3 witness: in the documented scenario the shared class `bar`
appears in neither output list. -/
theorem c3_diff_report_witness :
    "bar" ∉ (getUnusedCssClasses ["foo", "bar"] ["bar", "baz"]
        []).cssClassesNotFoundInTemplates ∧
    "bar" ∉ (getUnusedCssClasses ["foo", "bar"] ["bar", "baz"]
        []).templateClassesNotFoundInCss :=
  c3_diff_report.2.2.1 ["foo", "bar"] ["bar", "baz"] [] "bar" (by decide) (by decide)

/-- C4 (counterexample): a template file that reads successfully and
extracts without error but yields zero classes produces no record at
all: the processed data is the empty string, and the filter
`item.data.length > 0` removes the record, so the result list is empty
instead of containing one record for the file. -/
theorem c4_counterexample :
    processTemplateFilesToExtractClasses [⟨"a.twig", "a.twig"⟩]
        (fun _ => some "") = [] ∧
    extractClassesFromTemplate "" = .ok [] ∧
    String.intercalate " " ([] : List String) = "" :=
  ⟨rfl, rfl, rfl⟩

/-- C4 (amended): exactly one record appears per occurrence of an
input file that is read and extracted without error AND whose
processed data is non-empty; a record is in the output precisely when
it arises that way, so files whose processed data has length zero
contribute no record. -/
theorem c4_amended :
    (∀ (files : List FileInfo) (read : String → Option String)
      (extractorFn : String → Except String (List String))
      (dataProcessor : List String → ExtractedValue),
      (processFiles files read extractorFn dataProcessor).length =
        files.countP (fileQualifies read extractorFn dataProcessor)) ∧
    (∀ (files : List FileInfo) (read : String → Option String)
      (extractorFn : String → Except String (List String))
      (dataProcessor : List String → ExtractedValue) (r : ExtractedData),
      r ∈ processFiles files read extractorFn dataProcessor ↔
        (∃ file content extracted, file ∈ files ∧
          read file.path = some content ∧
          extractorFn content = .ok extracted ∧
          r = ⟨dataProcessor extracted, file.path⟩) ∧ 0 < dataLen r.data) :=
  ⟨processFiles_length, fun _ _ _ _ _ => mem_processFiles⟩

/-- C5: `extractClassesFromCss` fails exactly when the mode is neither
of the two valid values, in which case it returns the error (and no
partial result) without processing the content; for a valid mode it
succeeds on every content. -/
theorem c5_mode_validation :
    (∀ (content extractOnly : String),
      (∃ l, extractClassesFromCss content extractOnly = .ok l) ↔
        (extractOnly = "classes" ∨ extractOnly = "selectors")) ∧
    (∀ (content extractOnly : String),
      extractOnly ≠ "classes" → extractOnly ≠ "selectors" →
        extractClassesFromCss content extractOnly =
          .error "Invalid 'extractOnly' option. Must be either 'classes' or 'selectors'.") := by
  constructor
  · intro content extractOnly
    by_cases h1 : extractOnly = "classes"
    · subst h1
      simp [extractClassesFromCss]
    · by_cases h2 : extractOnly = "selectors"
      · subst h2
        simp [extractClassesFromCss]
      · simp [extractClassesFromCss, h1, h2]
  · intro content extractOnly h1 h2
    simp [extractClassesFromCss, h1, h2]

/-- C5 witness: an invalid mode yields the error. -/
theorem c5_mode_validation_witness :
    extractClassesFromCss ".a" "bogus" =
      .error "Invalid 'extractOnly' option. Must be either 'classes' or 'selectors'." :=
  c5_mode_validation.2 ".a" "bogus" (by decide) (by decide)

/-- C6: for `.icon { background: url(icon.png) no-repeat; }` in mode
classes the whole background declaration (semicolon and trailing
tokens included) is removed by the first clean-up pass, and the
extractor returns exactly `{icon}`. -/
theorem c6_background_url_scenario :
    String.mk (removeBgUrlDecls
        ((".icon \x7b background: url(icon.png) no-repeat; \x7d".data).length + 1)
        ".icon \x7b background: url(icon.png) no-repeat; \x7d".data) =
      ".icon \x7b  \x7d" ∧
    extractClassesFromCss ".icon \x7b background: url(icon.png) no-repeat; \x7d"
        "classes" = .ok ["icon"] :=
  ⟨rfl, rfl⟩

/-- C7: the template extractor is total: on every input string it
returns a class list and never fails (the only modelled failure point,
an empty `split(':')` result in the object branch, is unreachable
because a split always returns at least one segment). -/
theorem c7_template_extractor_total (content : String) :
    ∃ result, extractClassesFromTemplate content = .ok result := by
  unfold extractClassesFromTemplate
  exact dynLoop_ok _ _

/-- C8: ignore patterns only suppress membership in the diff report:
any class matched by a pattern is excluded from both output lists,
while extraction and flattening take no pattern input at all —
extracting content containing `js-foo` still yields `js-foo`, the
flattened set still contains it, and only the diff step drops it. -/
theorem c8_ignore_only_diff :
    (∀ (T C : List String) (ps : List (String → Bool)) (x : String),
      isIgnoredClass x ps = true →
        x ∉ (getUnusedCssClasses T C ps).cssClassesNotFoundInTemplates ∧
        x ∉ (getUnusedCssClasses T C ps).templateClassesNotFoundInCss) ∧
    extractClassesFromTemplate "class=\"js-foo\"" = .ok ["js-foo"] ∧
    createFlattenedClasses [⟨.str "js-foo", "a.twig"⟩] = ["js-foo"] ∧
    "js-foo" ∈ (getUnusedCssClasses ["js-foo"] []
        []).templateClassesNotFoundInCss ∧
    "js-foo" ∉ (getUnusedCssClasses ["js-foo"] []
        [fun s => "js-".data.isPrefixOf s.data]).templateClassesNotFoundInCss := by
  refine ⟨?_, rfl, rfl, by decide, by decide⟩
  intro T C ps x h
  constructor
  · intro hx
    have h2 := (mem_getUnused_css.mp hx).2.2
    rw [h] at h2
    exact Bool.noConfusion h2
  · intro hx
    have h2 := (mem_getUnused_tmpl.mp hx).2.2
    rw [h] at h2
    exact Bool.noConfusion h2

/-- C8 witness: a concrete ignored CSS class is suppressed from the
report. -/
theorem c8_ignore_only_diff_witness :
    "js-a" ∉ (getUnusedCssClasses ["x"] ["js-a"]
        [fun s => "js-".data.isPrefixOf s.data]).cssClassesNotFoundInTemplates :=
  (c8_ignore_only_diff.1 ["x"] ["js-a"]
    [fun s => "js-".data.isPrefixOf s.data] "js-a" (by decide)).1

/-- C9: flattening is a pure union of the per-file token sets —
membership depends only on which record contributes the token — and is
therefore invariant under permuting the record list. -/
theorem c9_flatten_order_independent :
    (∀ (items : List ExtractedData) (x : String),
      x ∈ createFlattenedClasses items ↔
        ∃ item, item ∈ items ∧ x ∈ itemTokens item) ∧
    (∀ (items1 items2 : List ExtractedData), items1.Perm items2 →
      ∀ x : String, x ∈ createFlattenedClasses items1 ↔
        x ∈ createFlattenedClasses items2) := by
  refine ⟨fun items x => mem_createFlattenedClasses, ?_⟩
  intro items1 items2 h x
  rw [mem_createFlattenedClasses, mem_createFlattenedClasses]
  constructor
  · rintro ⟨item, hm, ht⟩
    exact ⟨item, h.mem_iff.mp hm, ht⟩
  · rintro ⟨item, hm, ht⟩
    exact ⟨item, h.mem_iff.mpr hm, ht⟩

/-- C9 witness: swapping two concrete records leaves membership in the
flattened set unchanged. -/
theorem c9_flatten_order_independent_witness :
    "b" ∈ createFlattenedClasses
        [⟨.str "a b", "f1"⟩, ⟨.arr ["b", "c"], "f2"⟩] ↔
    "b" ∈ createFlattenedClasses
        [⟨.arr ["b", "c"], "f2"⟩, ⟨.str "a b", "f1"⟩] :=
  c9_flatten_order_independent.2
    [⟨.str "a b", "f1"⟩, ⟨.arr ["b", "c"], "f2"⟩]
    [⟨.arr ["b", "c"], "f2"⟩, ⟨.str "a b", "f1"⟩]
    (List.Perm.swap _ _ _) "b"

/-- C10: every match produced by the static pass and by the dynamic
pass is preceded by the start of input or a whitespace character (the
`(?<=^|\s)` lookbehind), so the `class=` inside a `:class=` attribute
is never matched by the static pass (`:` is not whitespace) and tokens
like `customclass=` are never matched; consequently
`customclass='a'` extracts nothing and a `:class` object binding
yields only its dynamic keys. -/
theorem c10_attr_lookbehind :
    (∀ (content : List Char) (m : AttrMatch),
      m ∈ scanAttr "class".data (content.length + 1) none content →
        prevOk m.prev = true) ∧
    (∀ (content : List Char) (m : AttrMatch),
      m ∈ scanAttr ":class".data (content.length + 1) none content →
        prevOk m.prev = true) ∧
    extractClassesFromTemplate "customclass='a'" = .ok [] ∧
    extractClassesFromTemplate ":class=\"\x7b active: isOn \x7d\"" = .ok ["active"] :=
  ⟨fun _ _ hm => scanAttr_prevOk _ _ _ _ _ hm,
   fun _ _ hm => scanAttr_prevOk _ _ _ _ _ hm, rfl, rfl⟩

/-- C10 witness: the single match of the static pass on `class="a"`
is at the start of input. -/
theorem c10_attr_lookbehind_witness :
    prevOk (AttrMatch.mk none dquote "a".data).prev = true :=
  c10_attr_lookbehind.1 "class=\"a\"".data ⟨none, dquote, "a".data⟩ (by decide)
